import Mathlib

/-!
Verification of the BleachLua binding layer: a shallow embedding of the
Variable Handle (LuaVar), its registry/reference-count discipline, the
comparison helper, dotted-path lookup, typed getters, the native-function
argument reconstruction, the dynamically-resolved member-function trampoline,
the Callable Wrapper error path, and the table-iterator stack bookkeeping.

The embedded Lua runtime (operand stack, registry, raw table reads,
comparison and coercion primitives) is modelled per the Lua 5.3 C API
contract the source is written against (BLEACHLUA_CORE_VERSION 53):
luaL_ref pops the stack top and returns LUA_REFNIL when that value is nil;
lua_pushstring with a null pointer pushes nil; lua_toboolean is false only
for nil and false; lua_isuserdata accepts both full and light userdata;
lua_compare(L, i1, i2, op) asks whether the value at i1 satisfies op when
compared with the value at i2.  Metatables and floating-point numbers are
not modelled (no claim below needs them).  Diagnostics (LUA_ERROR) are
tracked as a Bool; assertions log in checked builds and execution continues,
so they have no effect on the modelled state.
-/

namespace BleachLua

/-- A tagged Lua runtime value.  Tables, functions and full userdata blocks
are identified by an id into an external store; light userdata carries the
raw pointer value as a Nat. -/
inductive LuaValue where
  | nil
  | boolean (b : Bool)
  | intVal (n : Int)
  | str (s : String)
  | table (id : Nat)
  | func (id : Nat)
  | lightuserdata (p : Nat)
  | userdata (p : Nat)
deriving DecidableEq, Repr

/-- Runtime truth coercion, lua_toboolean: false only for nil and false. -/
def lua_toboolean : LuaValue → Bool
  | .nil => false
  | .boolean b => b
  | _ => true

/-- Runtime integer conversion, lua_tointegerx: succeeds exactly on integer
values in this model (string/float coercions are outside the model). -/
def lua_tointegerx : LuaValue → Option Int
  | .intVal n => some n
  | _ => none

/-- Runtime test lua_isuserdata: true for a full or a light userdata. -/
def lua_isuserdata : LuaValue → Bool
  | .userdata _ => true
  | .lightuserdata _ => true
  | _ => false

/-- Runtime read lua_touserdata: the carried pointer of a full or light
userdata, the null pointer (0) otherwise. -/
def lua_touserdata : LuaValue → Nat
  | .userdata p => p
  | .lightuserdata p => p
  | _ => 0

/-- Runtime test lua_istable. -/
def isTableVal : LuaValue → Bool
  | .table _ => true
  | _ => false

/-- Runtime test lua_isfunction. -/
def isFunctionVal : LuaValue → Bool
  | .func _ => true
  | _ => false

/-- The per-context runtime resources the Variable Handle operations touch:
the operand stack (list head = stack top), the persistent registry (slot id =
list index, none = released slot) and the heap of shared reference-count
blocks (allocation id = list index, none = deleted block, some n = a block
whose count is n). -/
structure RegState where
  stack : List LuaValue
  registry : List (Option LuaValue)
  rcHeap : List (Option Nat)
deriving DecidableEq, Repr

/-- The three fields of LuaVar: m_pState (modelled as a Bool: pointer
non-null or not), m_reference (none = LUA_REFNIL) and m_pRefCount (none =
nullptr, some a = pointer to heap allocation a). -/
structure LuaVar where
  hasState : Bool
  reference : Option Nat
  refCount : Option Nat
deriving DecidableEq, Repr

/-- The registry primitive luaL_ref: pops the stack top; if that value is
nil it returns LUA_REFNIL (none), otherwise it stores the value in a fresh
registry slot and returns the slot id. -/
def luaL_ref (s : RegState) : Option Nat × RegState :=
  match s.stack with
  | [] => (none, s)
  | v :: rest =>
    if v = .nil then (none, { s with stack := rest })
    else (some s.registry.length,
          { s with stack := rest, registry := s.registry ++ [some v] })

/-- The registry primitive luaL_unref: releases a registry slot. -/
def luaL_unref (s : RegState) (r : Nat) : RegState :=
  { s with registry := s.registry.set r none }

/-- RefCount::Decrement, acting on heap allocation a: decrements the stored
count and reports whether it reached zero. -/
def rcDecrement (s : RegState) (a : Nat) : Bool × RegState :=
  let cnt := (s.rcHeap.getD a none).getD 1
  (cnt - 1 = 0, { s with rcHeap := s.rcHeap.set a (some (cnt - 1)) })

/-- RefCount::Increment, acting on heap allocation a. -/
def rcIncrement (s : RegState) (a : Nat) : RegState :=
  { s with rcHeap := s.rcHeap.set a (some (((s.rcHeap.getD a none).getD 0) + 1)) }

/-- LuaVar::ClearRef (LuaVar.cpp lines 79-94): when a reference is held,
decrement the shared count; when the count reaches zero, release the
registry slot and delete the count block; then null both fields.  The
refCount = none branch under a live reference is a null dereference in the
source (its assertion fires); it is never reached under the pairing
invariant and is modelled as clearing the field. -/
def ClearRef (h : LuaVar) (s : RegState) : LuaVar × RegState :=
  match h.reference with
  | none => (h, s)
  | some r =>
    match h.refCount with
    | none => ({ h with reference := none }, s)
    | some a =>
      let d := rcDecrement s a
      if d.1 then
        let s2 := luaL_unref d.2 r
        ({ h with reference := none, refCount := none },
         { s2 with rcHeap := s2.rcHeap.set a none })
      else
        ({ h with reference := none, refCount := none }, d.2)

/-- LuaVar::CreateRegisteryEntryFromStack (LuaVar.cpp lines 459-466):
m_reference = luaL_ref(...); a fresh RefCount block is allocated only when
the returned reference is not LUA_REFNIL.  Note that the source does NOT
clear the previous fields first (it only asserts that they are empty), so
this definition overwrites m_reference and, on a non-nil reference,
m_pRefCount, leaving whatever they pointed at untouched elsewhere. -/
def CreateRegisteryEntryFromStack (h : LuaVar) (s : RegState) : LuaVar × RegState :=
  let res := luaL_ref s
  match res.1 with
  | some r =>
    ({ h with reference := some r, refCount := some res.2.rcHeap.length },
     { res.2 with rcHeap := res.2.rcHeap ++ [some 1] })
  | none => ({ h with reference := none }, res.2)

/-- StackHelpers::Push for bool: lua_pushboolean. -/
def pushBool (s : RegState) (b : Bool) : RegState :=
  { s with stack := .boolean b :: s.stack }

/-- StackHelpers::Push for integers: lua_pushinteger. -/
def pushInteger (s : RegState) (n : Int) : RegState :=
  { s with stack := .intVal n :: s.stack }

/-- StackHelpers::Push for strings: lua_pushstring, which pushes nil when
the pointer is null (none). -/
def pushString (s : RegState) (v : Option String) : RegState :=
  { s with stack := (match v with | none => LuaValue.nil | some t => .str t) :: s.stack }

/-- StackHelpers::Push for pointers: lua_pushlightuserdata. -/
def pushLightUserData (s : RegState) (p : Nat) : RegState :=
  { s with stack := .lightuserdata p :: s.stack }

/-- LuaVar::SetBool via SetValue: push the value, then
CreateRegisteryEntryFromStack.  The source performs no ClearRef here. -/
def SetBool (h : LuaVar) (s : RegState) (b : Bool) : LuaVar × RegState :=
  CreateRegisteryEntryFromStack h (pushBool s b)

/-- LuaVar::SetInteger via SetValue. -/
def SetInteger (h : LuaVar) (s : RegState) (n : Int) : LuaVar × RegState :=
  CreateRegisteryEntryFromStack h (pushInteger s n)

/-- LuaVar::SetString via SetValue (a null pointer argument is modelled as
none and is pushed as nil by lua_pushstring). -/
def SetString (h : LuaVar) (s : RegState) (v : Option String) : LuaVar × RegState :=
  CreateRegisteryEntryFromStack h (pushString s v)

/-- LuaVar::SetLightUserData via SetValue. -/
def SetLightUserData (h : LuaVar) (s : RegState) (p : Nat) : LuaVar × RegState :=
  CreateRegisteryEntryFromStack h (pushLightUserData s p)

/-- LuaVar::SetNil, the SetValue specialization for nullptr_t: just ClearRef. -/
def SetNil (h : LuaVar) (s : RegState) : LuaVar × RegState :=
  ClearRef h s

/-- LuaVar::Copy (LuaVar.cpp lines 493-502): ClearRef, take the three fields
from the right operand, and increment the shared count when present. -/
def Copy (this right : LuaVar) (s : RegState) : LuaVar × RegState :=
  let c := ClearRef this s
  let h2 : LuaVar :=
    { hasState := right.hasState, reference := right.reference, refCount := right.refCount }
  match right.refCount with
  | some a => (h2, rcIncrement c.2 a)
  | none => (h2, c.2)

/-- LuaVar::Move (LuaVar.cpp lines 504-515): ClearRef, take the fields, and
null out the source (state pointer, reference and count pointer).  Returns
(new this, new right, state). -/
def Move (this right : LuaVar) (s : RegState) : (LuaVar × LuaVar) × RegState :=
  let c := ClearRef this s
  (({ hasState := right.hasState, reference := right.reference, refCount := right.refCount },
    { hasState := false, reference := none, refCount := none }), c.2)

/-- LuaVar copy assignment (LuaVar.h lines 115-121): the self-assignment
guard compares addresses; sameObject models that address equality.  When the
operands are the same object, the operator returns immediately. -/
def assignCopy (sameObject : Bool) (this right : LuaVar) (s : RegState) :
    LuaVar × RegState :=
  if sameObject then (this, s) else Copy this right s

/-- LuaVar move assignment (LuaVar.h lines 122-128), with the same
self-assignment guard; returns (new this, new right, state). -/
def assignMove (sameObject : Bool) (this right : LuaVar) (s : RegState) :
    (LuaVar × LuaVar) × RegState :=
  if sameObject then ((this, right), s) else Move this right s

/-- The handle pairing invariant from the spec: a live registry slot id if
and only if a non-null reference-count pointer. -/
def PairInv (h : LuaVar) : Prop := h.reference.isSome ↔ h.refCount.isSome

instance (h : LuaVar) : Decidable (PairInv h) := by
  unfold PairInv; infer_instance

/-- The comparison operator selector passed to lua_compare. -/
inductive CompareOp where
  | opEq
  | opLt
  | opLe
deriving DecidableEq, Repr

/-- The runtime comparison primitive lua_compare(L, i1, i2, op): whether the
value v1 (at index i1) satisfies op when compared with the value v2 (at
index i2).  Modelled on integers; comparisons between other values are the
runtime's own (possibly aborting) territory and are returned as false. -/
def lua_compare (op : CompareOp) (v1 v2 : LuaValue) : Bool :=
  match op, v1, v2 with
  | .opEq, a, b => a = b
  | .opLt, .intVal a, .intVal b => a < b
  | .opLe, .intVal a, .intVal b => a ≤ b
  | _, _, _ => false

/-- LuaVar::CompareHelper (LuaVar.cpp lines 475-488): push the left value,
push the right value, then lua_compare(L, -1, -2, op) — index -1 is the
stack top (the right value) and -2 is below it (the left value) — and pop
both.  Returns the comparison result together with the restored stack. -/
def CompareHelper (left right : LuaValue) (op : CompareOp) (stack : List LuaValue) :
    Bool × List LuaValue :=
  let st2 := right :: left :: stack
  (lua_compare op (st2.getD 0 .nil) (st2.getD 1 .nil), st2.drop 2)

/-- LuaVar::operator== : CompareHelper(right, LUA_OPEQ). -/
def varEq (a b : LuaValue) : Bool := (CompareHelper a b .opEq []).1

/-- LuaVar::operator< : CompareHelper(right, LUA_OPLT). -/
def varLt (a b : LuaValue) : Bool := (CompareHelper a b .opLt []).1

/-- LuaVar::operator<= : CompareHelper(right, LUA_OPLE). -/
def varLe (a b : LuaValue) : Bool := (CompareHelper a b .opLe []).1

/-- LuaVar::operator> : negation of CompareHelper(right, LUA_OPLE). -/
def varGt (a b : LuaValue) : Bool := ! (CompareHelper a b .opLe []).1

/-- LuaVar::operator>= : negation of CompareHelper(right, LUA_OPLT). -/
def varGe (a b : LuaValue) : Bool := ! (CompareHelper a b .opLt []).1

/-- The store of table objects: table id maps to its entry list (traversal
order = list order, matching lua_next enumeration). -/
abbrev TableStore := List (List (LuaValue × LuaValue))

/-- The entries of a table value; non-tables have none. -/
def tableEntries (tbls : TableStore) : LuaValue → List (LuaValue × LuaValue)
  | .table id => tbls.getD id []
  | _ => []

/-- Raw table field read (lua_rawget, or lua_gettable on a metatable-free
table): the first entry whose key matches, else nil. -/
def rawget (tbls : TableStore) (v : LuaValue) (k : LuaValue) : LuaValue :=
  match (tableEntries tbls v).find? (fun e => decide (e.1 = k)) with
  | some e => e.2
  | none => .nil

/-- LuaVar::GetTableVar via GetTableValue<LuaVar> (LuaVar.h lines 675-706),
at the value level: diagnostic + nil when the receiver is not a table
(Is<LuaVar> is always true, so no further type check), otherwise the field
value under the string key.  The pair's Bool records whether a diagnostic
was emitted. -/
def GetTableVarV (tbls : TableStore) (v : LuaValue) (key : String) : LuaValue × Bool :=
  if isTableVal v then (rawget tbls v (.str key), false)
  else (.nil, true)

/-- The path-splitting loop of LuaVar::Lookup (LuaVar.cpp lines 302-316):
every chunk that precedes a found dot is pushed, empty or not, and the
final chunk after the last dot is pushed only when non-empty.  The
accumulator holds the current chunk's characters in reverse. -/
def splitPathLoop : List Char → List Char → List String
  | [], acc => if acc.isEmpty then [] else [String.mk acc.reverse]
  | c :: rest, acc =>
    if c = '.' then String.mk acc.reverse :: splitPathLoop rest []
    else splitPathLoop rest (c :: acc)

/-- The split produced by LuaVar::Lookup for a whole path string. -/
def splitPathSrc (p : String) : List String := splitPathLoop p.data []

/-- The walk of LuaVar::Lookup (LuaVar.cpp lines 325-346): the single-item
case reads the field directly; otherwise each segment but the last is read
and checked to be a table (diagnostic + nil on failure; the receiver of
each read is a table, so the read itself emits nothing), and the last
segment's field value is returned. -/
def LookupWalk (tbls : TableStore) : LuaValue → List String → LuaValue × Bool
  | v, [] => (v, false)
  | v, [k] => GetTableVarV tbls v k
  | v, k :: k2 :: rest =>
    let c := (GetTableVarV tbls v k).1
    if isTableVal c then LookupWalk tbls c (k2 :: rest)
    else (.nil, true)

/-- LuaVar::Lookup (LuaVar.cpp lines 293-347): diagnostic + nil when the
receiver is not a table; split the path; diagnostic + nil when no segment
was produced; otherwise walk the segments. -/
def Lookup (tbls : TableStore) (v : LuaValue) (path : String) : LuaValue × Bool :=
  if isTableVal v then
    match splitPathSrc path with
    | [] => (.nil, true)
    | [k] => GetTableVarV tbls v k
    | k :: k2 :: rest => LookupWalk tbls v (k :: k2 :: rest)
  else (.nil, true)

/-- Splitting into every dot-separated chunk, the final one included even
when empty. -/
def splitAll : List Char → List Char → List String
  | [], acc => [String.mk acc.reverse]
  | c :: rest, acc =>
    if c = '.' then String.mk acc.reverse :: splitAll rest []
    else splitAll rest (c :: acc)

/-- Splitting as the claim words it: split on the dot and drop every empty
segment. -/
def splitPathClaim (p : String) : List String :=
  (splitAll p.data []).filter (fun s => ! s.isEmpty)

/-- Lookup as the claim words it: like the source but with every empty
segment dropped from the split. -/
def LookupClaim (tbls : TableStore) (v : LuaValue) (path : String) : LuaValue × Bool :=
  if isTableVal v then
    match splitPathClaim path with
    | [] => (.nil, true)
    | segs => LookupWalk tbls v segs
  else (.nil, true)

/-- Drops the last element of a chunk list when that element is the empty
string. -/
def dropTrailingEmpty (l : List String) : List String :=
  match l.getLast? with
  | some s => if s = "" then l.dropLast else l
  | none => l

/-- The amended splitting: all chunks, with only an empty trailing chunk
dropped. -/
def splitAmended (p : String) : List String := dropTrailingEmpty (splitAll p.data [])

/-- StackHelpers::Get<bool>: lua_toboolean of the value, no failure path. -/
def GetValueBool (v : LuaValue) : Bool := lua_toboolean v

/-- StackHelpers::Get for an integer type (StackHelpers.h lines 457-468):
lua_tointegerx; on failure a diagnostic is emitted and the type's default 0
is returned.  The Bool records the diagnostic. -/
def GetValueInteger (v : LuaValue) : Int × Bool :=
  match lua_tointegerx v with
  | some n => (n, false)
  | none => (0, true)

/-- LuaVar::GetBool via GetValue<bool> and DoLuaAction: a handle with no
pushable value (none) yields the zero-initialized value false; otherwise
the coercion of the held value. -/
def GetBoolVar (v : Option LuaValue) : Bool :=
  match v with
  | none => false
  | some val => GetValueBool val

/-- LuaVar::GetInteger via GetValue<lua_Integer> and DoLuaAction: a handle
with no pushable value yields the zero-initialized 0 (no diagnostic);
otherwise the conversion of the held value, with its diagnostic flag. -/
def GetIntegerVar (v : Option LuaValue) : Int × Bool :=
  match v with
  | none => (0, false)
  | some val => GetValueInteger val

/-- Runtime number conversion lua_tonumber: the numeric value of a number,
0 for values that do not convert (string-to-number coercion is outside the
model, as with lua_tointegerx); the numeric domain is modelled over Int
since no claim depends on fractional values. -/
def lua_tonumber : LuaValue → Int
  | .intVal n => n
  | _ => 0

/-- Runtime string conversion lua_tostring: the string itself, the printed
form of a number, and the null pointer (none) for every other value. -/
def lua_tostring : LuaValue → Option String
  | .str s => some s
  | .intVal n => some (toString n)
  | _ => none

/-- StackHelpers::Get for a floating-point type (StackHelpers.h lines
522-527): a static_cast of lua_tonumber — no success check and no
diagnostic on any build. -/
def GetValueNumber (v : LuaValue) : Int × Bool := (lua_tonumber v, false)

/-- StackHelpers::Get for a string (StackHelpers.h lines 530-535):
lua_tostring — no diagnostic on any build. -/
def GetValueString (v : LuaValue) : Option String × Bool := (lua_tostring v, false)

/-- StackHelpers::Get for userdata (StackHelpers.h lines 555-560):
lua_touserdata — no diagnostic on any build. -/
def GetValueLightUserData (v : LuaValue) : Nat × Bool := (lua_touserdata v, false)

/-- LuaVar::GetNumber via GetValue<lua_Number> and DoLuaAction: zero-init 0
for a handle with no pushable value, else the held value's conversion. -/
def GetNumberVar (v : Option LuaValue) : Int × Bool :=
  match v with
  | none => (0, false)
  | some val => GetValueNumber val

/-- LuaVar::GetString via GetValue<const char*> and DoLuaAction: the
zero-initialized null pointer for a handle with no pushable value, else the
held value's conversion. -/
def GetStringVar (v : Option LuaValue) : Option String × Bool :=
  match v with
  | none => (none, false)
  | some val => GetValueString val

/-- LuaVar::GetLightUserData via GetValue<void*> and DoLuaAction: the
zero-initialized null pointer for a handle with no pushable value, else the
held value's conversion. -/
def GetLightUserDataVar (v : Option LuaValue) : Nat × Bool :=
  match v with
  | none => (0, false)
  | some val => GetValueLightUserData val

/-- The declared parameter types a native function can be bound with, as far
as the modelled marshalling goes. -/
inductive ArgTy where
  | aInt
  | aBool
  | aStr
  | aLud
deriving DecidableEq, Repr

/-- StackHelpers::Get<Arg> for a declared type applied to one stack slot,
with the marshalled native value re-expressed as a LuaValue: integers via
lua_tointegerx (default 0 on failure), bools via lua_toboolean, strings via
lua_tostring (the null pointer result of a non-string non-number is the nil
value here), pointers via lua_touserdata. -/
def marshalGet : ArgTy → LuaValue → LuaValue
  | .aInt, v => .intVal (GetValueInteger v).1
  | .aBool, v => .boolean (lua_toboolean v)
  | .aStr, v =>
    match v with
    | .str s => .str s
    | .intVal n => .str (toString n)
    | _ => .nil
  | .aLud, v => .lightuserdata (lua_touserdata v)

/-- StackHelpers::GetDefault for a declared type: 0, false, null string
(nil here), null pointer. -/
def defaultGet : ArgTy → LuaValue
  | .aInt => .intVal 0
  | .aBool => .boolean false
  | .aStr => .nil
  | .aLud => .lightuserdata 0

/-- The per-type defaults as claim C6 words them: 0, false, EMPTY STRING,
null pointer. -/
def defaultClaim : ArgTy → LuaValue
  | .aInt => .intVal 0
  | .aBool => .boolean false
  | .aStr => .str ""
  | .aLud => .lightuserdata 0

/-- LuaVar::ProcessArg (LuaVar.h lines 979-1001): position kTupleIndex of
the tuple receives the marshalled stack slot kParamIndex = kTupleIndex + 1
when kTupleIndex < numArgs, else the type's default; then recurse.  The
argument stack is listed bottom first, so slot i+1 is element i. -/
def ProcessArg (args : List LuaValue) (numArgs : Nat) :
    Nat → List ArgTy → List LuaValue
  | _, [] => []
  | kTupleIndex, ty :: rest =>
    (if kTupleIndex < numArgs then marshalGet ty (args.getD kTupleIndex .nil)
     else defaultGet ty)
      :: ProcessArg args numArgs (kTupleIndex + 1) rest

/-- LuaVar::BuildArguments (LuaVar.h lines 936-948): fill the tuple with
ProcessArg starting at tuple index 0, stack slot 1, with numArgs =
lua_gettop; then lua_settop(0) clears the whole stack unconditionally.
Returns the tuple and the stack left afterwards. -/
def BuildArguments (tys : List ArgTy) (args : List LuaValue) :
    List LuaValue × List LuaValue :=
  (ProcessArg args args.length 0 tys, [])

/-- The observable outcome of one trampoline invocation: whether (and with
which instance pointer and argument tuple) the native member function was
invoked, how many results were reported to the runtime, and whether a
diagnostic was emitted. -/
structure MemberCallResult where
  invoked : Option (Nat × List LuaValue)
  nresults : Nat
  diag : Bool
deriving DecidableEq, Repr

/-- LuaVar::CallBoundMemberFunction (LuaVar.h lines 820-865): the first call
argument must be a table (lua_type of a missing argument is LUA_TNONE);
its __object field is fetched with lua_rawget and must satisfy
lua_isuserdata (which accepts full AND light userdata); on failure a
diagnostic and zero results, no native call.  On success the receiver table
is removed from the argument list (lua_remove(1)) and the member function
is invoked on the pointer with the tuple built by BuildArgumentsWithObj,
whose ProcessArg run over the remaining slots coincides with ProcessArg
from index 0 over the excised stack.  retNonVoid tells whether Call pushes
one result. -/
def CallBoundMemberFunction (tbls : TableStore) (tys : List ArgTy)
    (retNonVoid : Bool) (stack : List LuaValue) : MemberCallResult :=
  match stack with
  | first :: params =>
    if isTableVal first then
      let objVal := rawget tbls first (.str "__object")
      if lua_isuserdata objVal then
        { invoked := some (lua_touserdata objVal, ProcessArg params params.length 0 tys),
          nresults := if retNonVoid then 1 else 0,
          diag := false }
      else { invoked := none, nresults := 0, diag := true }
    else { invoked := none, nresults := 0, diag := true }
  | [] => { invoked := none, nresults := 0, diag := true }

/-- The zero-argument call shape of LuaFunction<bool> (LuaFunction.h lines
113-137).  When the handle is not a function, the source emits a diagnostic
and returns StackHelpers::Get<RetType>() — lua_toboolean of the current
stack top (false when the stack is empty) — NOT the type's default.
Otherwise: record the depth, push the error handler and the function,
lua_pcall; the scoped resetter restores the recorded depth on every exit;
failure yields a diagnostic and the default, success the coerced single
result.  The protected call itself is the runtime's black box, supplied as
pcall; it receives the pushed stack and returns (ok, result-or-error).
Result: (returned value, final stack, diagnostic emitted). -/
def LuaFunctionZeroArgBool (pcall : List LuaValue → Bool × LuaValue)
    (fv : LuaValue) (stack : List LuaValue) : Bool × List LuaValue × Bool :=
  if isFunctionVal fv then
    let r := pcall (fv :: LuaValue.func 0 :: stack)
    if r.1 then (lua_toboolean r.2, stack, false)
    else (false, stack, true)
  else
    (((stack.head?).map lua_toboolean).getD false, stack, true)

/-- The variadic-typed call shape of LuaFunction<bool> (LuaFunction.h lines
83-111): when the handle is not a function, diagnostic and
StackHelpers::GetDefault<RetType>() = false, with no pushes; otherwise the
handler, function and marshalled arguments are pushed and lua_pcall runs,
the resetter restoring the recorded depth on every exit. -/
def LuaFunctionArgsBool (pcall : List LuaValue → Bool × LuaValue)
    (fv : LuaValue) (args : List LuaValue) (stack : List LuaValue) :
    Bool × List LuaValue × Bool :=
  if isFunctionVal fv then
    let r := pcall (args.reverse ++ fv :: LuaValue.func 0 :: stack)
    if r.1 then (lua_toboolean r.2, stack, false)
    else (false, stack, true)
  else
    (false, stack, true)

/-- The TableIterator fields that matter to the stack discipline: the
exhausted flag and the current key/value pair (none when exhausted). -/
structure TableIteratorM where
  isAtEnd : Bool
  keyValue : Option (LuaValue × LuaValue)
deriving DecidableEq, Repr

/-- The exhausted iterator (the default-constructed end sentinel). -/
def endIter : TableIteratorM := { isAtEnd := true, keyValue := none }

/-- The runtime traversal primitive lua_next's key successor: with a nil
(none) key the first entry, with a key the entry after it in traversal
order, and none when the traversal is finished. -/
def luaNextAfter : List (LuaValue × LuaValue) → Option LuaValue → Option (LuaValue × LuaValue)
  | entries, none => entries.head?
  | [], some _ => none
  | e :: rest, some k => if e.1 = k then rest.head? else luaNextAfter rest (some k)

/-- LuaVar::InternalBegin (LuaVar.cpp lines 522-566) over the handle's
value (none = invalid handle): invalid or non-table values yield a
diagnostic and the end iterator with the stack untouched (the pushed value
is popped again); an empty table pops everything back; otherwise the first
pair is captured and the stack is left holding [table, key] above the
original depth (key on top). -/
def InternalBegin (tbls : TableStore) (v : Option LuaValue)
    (stack : List LuaValue) : TableIteratorM × List LuaValue :=
  match v with
  | none => (endIter, stack)
  | some val =>
    if isTableVal val then
      match luaNextAfter (tableEntries tbls val) none with
      | none => (endIter, stack)
      | some kv => ({ isAtEnd := false, keyValue := some kv }, kv.1 :: val :: stack)
    else (endIter, stack)

/-- TableIterator::operator++ (TableIterator.cpp lines 41-63): the stack
holds [table, key] with the key on top; lua_next either finds the next pair
(leaving [table, newKey]) or fails, in which case SetToEnd clears the pair
and pops the table, restoring the original depth. -/
def IterNext (tbls : TableStore) (it : TableIteratorM)
    (stack : List LuaValue) : TableIteratorM × List LuaValue :=
  match stack with
  | key :: t :: base =>
    match luaNextAfter (tableEntries tbls t) (some key) with
    | none => (endIter, base)
    | some kv => ({ isAtEnd := false, keyValue := some kv }, kv.1 :: t :: base)
  | _ => (it, stack)

/-- TableIterator::~TableIterator (TableIterator.cpp lines 30-39): pop two
slots when not exhausted, nothing otherwise. -/
def IterDestruct (it : TableIteratorM) (stack : List LuaValue) : List LuaValue :=
  if it.isAtEnd then stack else stack.drop 2

/-- The iterator states reachable from a begin call over the base stack,
through any number of live advances. -/
inductive IterReach (tbls : TableStore) (base : List LuaValue) :
    TableIteratorM → List LuaValue → Prop where
  | bgn (v : Option LuaValue) (it : TableIteratorM) (st : List LuaValue)
      (h : InternalBegin tbls v base = (it, st)) : IterReach tbls base it st
  | step (it : TableIteratorM) (st : List LuaValue) (it2 : TableIteratorM)
      (st2 : List LuaValue) (hr : IterReach tbls base it st)
      (hlive : it.isAtEnd = false) (h : IterNext tbls it st = (it2, st2)) :
      IterReach tbls base it2 st2

/-- Claim C1 (code evaluated at the failing input): a handle holding a live
registry reference (slot 0, count block 0 at count 1), hit with SetBool,
does NOT release the old reference first: the handle ends up on fresh slot 1
and fresh count block 1, while the old registry slot 0 still holds its value
and the old count block 0 still exists with count 1 — both leaked, where the
claim requires them to be released (slot freed, block deleted). -/
theorem setValue_leaks_previous_reference :
    SetBool ⟨true, some 0, some 0⟩ ⟨[], [some (.boolean true)], [some 1]⟩ false
        = (⟨true, some 1, some 1⟩,
           ⟨[], [some (.boolean true), some (.boolean false)], [some 1, some 1]⟩) ∧
    ((SetBool ⟨true, some 0, some 0⟩ ⟨[], [some (.boolean true)], [some 1]⟩
        false).2.registry.getD 0 none ≠ none) ∧
    ((SetBool ⟨true, some 0, some 0⟩ ⟨[], [some (.boolean true)], [some 1]⟩
        false).2.rcHeap.getD 0 none ≠ none) := by
  decide

/-- Claim C8 (code evaluated at the failing input): the pairing invariant
holds for a handle with live slot 0 and count block 0, yet SetString with a
null pointer (lua_pushstring pushes nil, luaL_ref returns LUA_REFNIL, and
the source then leaves m_pRefCount untouched) produces a handle whose
reference is the sentinel while its count pointer is still non-null — the
two fields are no longer cleared as a pair. -/
theorem setString_null_breaks_pairing :
    PairInv ⟨true, some 0, some 0⟩ ∧
    (SetString ⟨true, some 0, some 0⟩ ⟨[], [some (.boolean true)], [some 1]⟩
        none).1 = ⟨true, none, some 0⟩ ∧
    ¬ PairInv ⟨true, none, some 0⟩ := by
  decide

/-- Claim C10: with the address-equality guard taken (the only shape a
self-assignment can have), both the copy assignment and the move assignment
return the handle with all three fields unchanged and touch neither the
registry nor the reference-count heap. -/
theorem selfAssignment_noop (h : LuaVar) (s : RegState) :
    assignCopy true h h s = (h, s) ∧ assignMove true h h s = ((h, h), s) := by
  constructor <;> rfl

/-- Claim C10 witness: self-assignment at a concrete handle holding a live
reference over a concrete state. -/
theorem selfAssignment_noop_witness :
    assignCopy true ⟨true, some 0, some 0⟩ ⟨true, some 0, some 0⟩
        ⟨[], [some (.boolean true)], [some 1]⟩
      = (⟨true, some 0, some 0⟩, ⟨[], [some (.boolean true)], [some 1]⟩) ∧
    assignMove true ⟨true, some 0, some 0⟩ ⟨true, some 0, some 0⟩
        ⟨[], [some (.boolean true)], [some 1]⟩
      = ((⟨true, some 0, some 0⟩, ⟨true, some 0, some 0⟩),
         ⟨[], [some (.boolean true)], [some 1]⟩) :=
  selfAssignment_noop ⟨true, some 0, some 0⟩ ⟨[], [some (.boolean true)], [some 1]⟩

/-- Claim C3 (code evaluated at the failing input): on handles holding the
numbers 1 and 2, operator< returns false although the runtime LT primitive
applied to (1, 2) — left less than right, as the claim states — is true;
CompareHelper hands lua_compare its operands in swapped order (index -1 is
the pushed right value).  operator> on the same operands returns true. -/
theorem comparison_operand_order_swapped :
    varLt (.intVal 1) (.intVal 2) = false ∧
    lua_compare .opLt (.intVal 1) (.intVal 2) = true ∧
    varGt (.intVal 1) (.intVal 2) = true ∧
    varLe (.intVal 1) (.intVal 2) = false ∧
    lua_compare .opLe (.intVal 1) (.intVal 2) = true := by
  decide

/-- Claim C2 (code evaluated at the failing input): invoking the
zero-argument call shape of LuaFunction<bool> on a handle holding the
non-function value 7, while the operand stack top holds the boolean true,
returns true — the coercion of the stack top — instead of the bool default
false, though it emits the diagnostic and leaves the stack depth unchanged;
the variadic-typed shape on the same input returns the default false.  The
protected-call collaborator is irrelevant on this path and is supplied as a
trivial stub. -/
theorem zeroArgCall_error_path_reads_stack :
    LuaFunctionZeroArgBool (fun _ => (true, .nil)) (.intVal 7) [.boolean true]
        = (true, [.boolean true], true) ∧
    LuaFunctionArgsBool (fun _ => (true, .nil)) (.intVal 7) [] [.boolean true]
        = (false, [.boolean true], true) := by
  decide

/-- Claim C4 counterexample: on the table t = a -> (b -> 42), the claim
(empty interior segments dropped) makes Lookup of the path a..b return 42,
but the source keeps the interior empty segment, looks up the empty key in
the inner table, finds a non-table, and returns nil plus a diagnostic. -/
theorem lookup_keeps_interior_empty_segments :
    Lookup [[(.str "a", .table 1)], [(.str "b", .intVal 42)]] (.table 0) "a..b"
        = (.nil, true) ∧
    LookupClaim [[(.str "a", .table 1)], [(.str "b", .intVal 42)]]
        (.table 0) "a..b" = (.intVal 42, false) ∧
    ((LuaValue.nil, true) : LuaValue × Bool) ≠ (.intVal 42, false) := by
  decide

/-- Claim C5 counterexample: GetBool on a handle holding the non-boolean
value 5 does not return the default false — lua_toboolean coerces every
value other than nil and false to true. -/
theorem getBool_not_default_on_number :
    ¬ (GetBoolVar (some (.intVal 5)) = false) := by
  decide

/-- Claim C7 counterexample: with the first call argument a table whose
__object field holds a LIGHT userdata (not an opaque block), the claim
requires a diagnostic, zero results and no native call, but lua_isuserdata
accepts light userdata, so the trampoline invokes the member function on
the carried pointer with no diagnostic. -/
theorem memberCall_accepts_light_userdata :
    CallBoundMemberFunction [[(.str "__object", .lightuserdata 7)]] [] false
        [.table 0] = ⟨some (7, []), 0, false⟩ := by
  decide

/-- The tuple ProcessArg builds has one entry per declared parameter type,
whatever the argument count. -/
theorem processArg_length (args : List LuaValue) (n : Nat) (tys : List ArgTy) :
    ∀ k, (ProcessArg args n k tys).length = tys.length := by
  induction tys with
  | nil => intro k; rfl
  | cons t ts ih => intro k; simp [ProcessArg, ih]

/-- Entry i of the tuple ProcessArg builds starting at tuple index k is the
marshalled stack slot k + i + 1 when k + i < numArgs, else the declared
type's default. -/
theorem processArg_getD (args : List LuaValue) (n : Nat) (tys : List ArgTy) :
    ∀ k i, i < tys.length →
      (ProcessArg args n k tys).getD i .nil =
        (if k + i < n then marshalGet (tys.getD i .aInt) (args.getD (k + i) .nil)
         else defaultGet (tys.getD i .aInt)) := by
  induction tys with
  | nil => intro k i h; simp at h
  | cons t ts ih =>
    intro k i h
    cases i with
    | zero => simp [ProcessArg]
    | succ j =>
      have hj : j < ts.length := by simpa using h
      have hrec := ih (k + 1) j hj
      have harith : k + 1 + j = k + (j + 1) := by omega
      simp only [ProcessArg, List.getD_cons_succ, List.getD_cons_zero, hrec, harith]

/-- Claim C6 amended: position i (0-based; stack slot i + 1) of the tuple
built by BuildArguments receives the marshalled argument stack slot when
the call supplied more than i arguments, and GetDefault of the declared
type otherwise — 0, false, the NULL STRING POINTER (not the empty string)
and the null pointer; only the declared arity is consumed (the tuple
length equals the declared parameter count, extra supplied arguments land
nowhere); and the argument region of the operand stack is cleared
unconditionally before the native function runs. -/
theorem buildArguments_positional (tys : List ArgTy) (args : List LuaValue)
    (i : Nat) (hi : i < tys.length) :
    (BuildArguments tys args).1.getD i .nil =
      (if i < args.length then marshalGet (tys.getD i .aInt) (args.getD i .nil)
       else defaultGet (tys.getD i .aInt)) ∧
    (BuildArguments tys args).1.length = tys.length ∧
    (BuildArguments tys args).2 = [] := by
  refine ⟨?_, processArg_length args args.length tys 0, rfl⟩
  have := processArg_getD args args.length tys 0 i hi
  simpa using this

/-- Claim C6 witness: two declared parameters, one supplied argument —
position 0 gets the marshalled 7, position 1 the bool default false, the
stack is cleared. -/
theorem buildArguments_positional_witness :
    (1 < ([ArgTy.aInt, ArgTy.aBool] : List ArgTy).length) ∧
    ((BuildArguments [ArgTy.aInt, ArgTy.aBool] [.intVal 7]).1.getD 1 .nil =
      (if 1 < ([LuaValue.intVal 7] : List LuaValue).length then
        marshalGet (([ArgTy.aInt, ArgTy.aBool] : List ArgTy).getD 1 .aInt)
          (([LuaValue.intVal 7] : List LuaValue).getD 1 .nil)
       else defaultGet (([ArgTy.aInt, ArgTy.aBool] : List ArgTy).getD 1 .aInt)) ∧
     (BuildArguments [ArgTy.aInt, ArgTy.aBool] [.intVal 7]).1.length = 2 ∧
     (BuildArguments [ArgTy.aInt, ArgTy.aBool] [.intVal 7]).2 = []) :=
  ⟨by decide, buildArguments_positional [ArgTy.aInt, ArgTy.aBool] [.intVal 7] 1 (by decide)⟩

/-- Claim C5 amended, covering every type of the original claim: no getter
fails the call, each returns what the runtime conversion primitive returns,
and only the INTEGER family reports a type-mismatch diagnostic.  Integer:
default 0 plus a diagnostic when not convertible, exactly as claimed.
Bool: the truth coercion with no failure path and no diagnostic — false
precisely when the held value is nil or the boolean false, so a non-boolean
value yields true, not the default.  Number: lua_tonumber, which yields the
default 0 on a non-numeric value with NO diagnostic.  String: lua_tostring,
which yields the default null pointer on a value that is neither a string
nor a number with NO diagnostic.  Light pointer: lua_touserdata, which
yields the default null pointer on a non-userdata value with NO
diagnostic. -/
theorem getters_amended (v : LuaValue) :
    (lua_tointegerx v = none → GetIntegerVar (some v) = (0, true)) ∧
    (GetBoolVar (some v) = false ↔ v = .nil ∨ v = .boolean false) ∧
    ((∀ n, v ≠ LuaValue.intVal n) → GetNumberVar (some v) = (0, false)) ∧
    (lua_tostring v = none → GetStringVar (some v) = (none, false)) ∧
    (lua_isuserdata v = false → GetLightUserDataVar (some v) = (0, false)) := by
  cases v <;>
    simp [GetIntegerVar, GetValueInteger, lua_tointegerx, GetBoolVar,
      GetValueBool, lua_toboolean, GetNumberVar, GetValueNumber, lua_tonumber,
      GetStringVar, GetValueString, lua_tostring, GetLightUserDataVar,
      GetValueLightUserData, lua_touserdata, lua_isuserdata]

/-- Claim C5 amended witness: a table value converts to none of the
requested types — GetInteger yields default 0 WITH a diagnostic, while
GetNumber, GetString and GetLightUserData yield their defaults with NO
diagnostic. -/
theorem getters_amended_witness :
    GetIntegerVar (some (.table 3)) = (0, true) ∧
    GetNumberVar (some (.table 3)) = (0, false) ∧
    GetStringVar (some (.table 3)) = (none, false) ∧
    GetLightUserDataVar (some (.table 3)) = (0, false) :=
  ⟨(getters_amended (.table 3)).1 rfl,
   (getters_amended (.table 3)).2.2.1 (fun _ h => nomatch h),
   (getters_amended (.table 3)).2.2.2.1 rfl,
   (getters_amended (.table 3)).2.2.2.2 rfl⟩

/-- Claim C6 counterexample: a native function bound with one declared
string parameter, called from the scripting side with no arguments —
position 0 of the rebuilt tuple receives GetDefault<const char*>(), the
null string pointer (the nil value in this model), not the empty string the
claim names among the defaults. -/
theorem stringDefault_is_null_not_empty :
    (BuildArguments [ArgTy.aStr] []).1.getD 0 .nil = .nil ∧
    defaultGet .aStr = .nil ∧
    defaultClaim .aStr = .str "" ∧
    (LuaValue.nil ≠ .str "") := by
  decide

/-- Claim C7 amended: the trampoline fails (diagnostic, zero results, no
native call) when the first call argument is missing or not a table, or
when the table's __object field does not satisfy lua_isuserdata — a test
that a FULL OR LIGHT userdata passes; when it passes, the receiver table is
excised and the member function is invoked on the carried pointer with the
tuple built from the remaining slots only, one entry per declared
parameter. -/
theorem memberCall_amended (tbls : TableStore) (tys : List ArgTy) (rv : Bool)
    (stack : List LuaValue) :
    (stack = [] → CallBoundMemberFunction tbls tys rv stack = ⟨none, 0, true⟩) ∧
    (∀ first params, stack = first :: params → isTableVal first = false →
      CallBoundMemberFunction tbls tys rv stack = ⟨none, 0, true⟩) ∧
    (∀ first params, stack = first :: params → isTableVal first = true →
      lua_isuserdata (rawget tbls first (.str "__object")) = false →
      CallBoundMemberFunction tbls tys rv stack = ⟨none, 0, true⟩) ∧
    (∀ first params, stack = first :: params → isTableVal first = true →
      lua_isuserdata (rawget tbls first (.str "__object")) = true →
      CallBoundMemberFunction tbls tys rv stack =
        ⟨some (lua_touserdata (rawget tbls first (.str "__object")),
               ProcessArg params params.length 0 tys),
         if rv then 1 else 0, false⟩ ∧
      (ProcessArg params params.length 0 tys).length = tys.length) := by
  refine ⟨?_, ?_, ?_, ?_⟩
  · rintro rfl; rfl
  · rintro first params rfl hnt
    simp [CallBoundMemberFunction, hnt]
  · rintro first params rfl ht hud
    simp [CallBoundMemberFunction, ht, hud]
  · rintro first params rfl ht hud
    exact ⟨by simp [CallBoundMemberFunction, ht, hud],
           processArg_length params params.length tys 0⟩

/-- Claim C7 amended witness: a table whose __object carries a full
userdata block, with one supplied argument of the one declared parameter —
the receiver is excised and the member function is invoked on pointer 5
with exactly the marshalled argument. -/
theorem memberCall_amended_witness :
    CallBoundMemberFunction [[(.str "__object", .userdata 5)]] [ArgTy.aInt] true
        [.table 0, .intVal 3] = ⟨some (5, [.intVal 3]), 1, false⟩ :=
  ((memberCall_amended [[(.str "__object", .userdata 5)]] [ArgTy.aInt] true
      [.table 0, .intVal 3]).2.2.2 (.table 0) [.intVal 3] rfl rfl rfl).1

/-- The all-chunks split never produces an empty list: there is always a
final chunk. -/
theorem splitAll_ne_nil (cs : List Char) : ∀ acc, splitAll cs acc ≠ [] := by
  induction cs with
  | nil => intro acc; simp [splitAll]
  | cons c rest ih =>
    intro acc
    simp only [splitAll]
    split
    · simp
    · exact ih _

/-- Dropping an empty trailing chunk commutes with consing a chunk in
front, as long as the tail is non-empty. -/
theorem dropTrailingEmpty_cons (x : String) (l : List String) (hl : l ≠ []) :
    dropTrailingEmpty (x :: l) = x :: dropTrailingEmpty l := by
  rcases l with _ | ⟨b, t⟩
  · exact absurd rfl hl
  · unfold dropTrailingEmpty
    rw [List.getLast?_cons_cons]
    cases hgl : (b :: t).getLast? with
    | none => simp at hgl
    | some s =>
      by_cases hs : s = ""
      · simp [hs, List.dropLast]
      · simp [hs]

/-- The source's splitting loop keeps every pre-dot chunk and drops only an
empty final chunk: it equals the all-chunks split with an empty trailing
chunk removed. -/
theorem splitPathLoop_eq_dropTrailing (cs : List Char) :
    ∀ acc, splitPathLoop cs acc = dropTrailingEmpty (splitAll cs acc) := by
  induction cs with
  | nil =>
    intro acc
    simp only [splitPathLoop, splitAll, dropTrailingEmpty, List.getLast?_singleton]
    by_cases h : acc.isEmpty
    · have hnil : acc = [] := by simpa [List.isEmpty_iff] using h
      subst hnil
      simp [List.dropLast]
    · have hne : acc ≠ [] := by simpa [List.isEmpty_iff] using h
      have hmk : String.mk acc.reverse ≠ "" := by
        simpa [String.ext_iff] using (by simpa using hne : acc.reverse ≠ [])
      simp [h, hmk]
  | cons c rest ih =>
    intro acc
    simp only [splitPathLoop, splitAll]
    split
    · rw [ih [], dropTrailingEmpty_cons _ _ (splitAll_ne_nil rest [])]
    · exact ih (c :: acc)

/-- The source's splitting loop yields no segment exactly when both the
remaining input and the accumulated chunk are empty. -/
theorem splitPathLoop_eq_nil_iff (cs : List Char) :
    ∀ acc, splitPathLoop cs acc = [] ↔ (cs = [] ∧ acc = []) := by
  induction cs with
  | nil =>
    intro acc
    simp only [splitPathLoop]
    by_cases h : acc.isEmpty
    · have hnil : acc = [] := by simpa [List.isEmpty_iff] using h
      simp [h, hnil]
    · have hne : acc ≠ [] := by simpa [List.isEmpty_iff] using h
      simp [h, hne]
  | cons c rest ih =>
    intro acc
    simp only [splitPathLoop]
    split
    · simp
    · simp [ih]

/-- Claim C4 amended: Lookup fails with diagnostic + nil when the receiver
is not a table; otherwise it walks the segments of the amended split — all
dot-separated chunks with only an empty TRAILING chunk removed, so interior
empty segments are kept and looked up as keys — failing with diagnostic +
nil when no segment remains or an intermediate segment resolves to a
non-table, and returning the final segment's stored value otherwise; and
the split is empty exactly for the empty total path. -/
theorem lookup_amended (tbls : TableStore) (v : LuaValue) (p : String) :
    (Lookup tbls v p =
      (if isTableVal v then
        (if splitAmended p = [] then (LuaValue.nil, true)
         else LookupWalk tbls v (splitAmended p))
       else (LuaValue.nil, true))) ∧
    (splitAmended p = [] ↔ p = "") := by
  have hs : splitPathSrc p = splitAmended p :=
    splitPathLoop_eq_dropTrailing p.data []
  constructor
  · unfold Lookup
    rw [hs]
    rcases hsp : splitAmended p with _ | ⟨k, _ | ⟨k2, rest⟩⟩ <;>
      simp [LookupWalk]
  · rw [← hs]
    unfold splitPathSrc
    rw [splitPathLoop_eq_nil_iff]
    have hdata : ("" : String).data = [] := rfl
    constructor
    · rintro ⟨h1, -⟩
      exact String.ext (by rw [h1, hdata])
    · rintro rfl
      exact ⟨rfl, rfl⟩

/-- Claim C4 amended witness: the amended split of the empty path is empty,
obtained from the characterization at a concrete input. -/
theorem lookup_amended_witness : splitAmended "" = [] :=
  (lookup_amended [] .nil "").2.mpr rfl

/-- The stack shape invariant of the iterator protocol: an exhausted
iterator has unwound to the base stack, a live one holds exactly the
current key above the table above the base stack. -/
theorem iterReach_shape (tbls : TableStore) (base : List LuaValue)
    (it : TableIteratorM) (st : List LuaValue)
    (h : IterReach tbls base it st) :
    (it.isAtEnd = true ∧ st = base) ∨
    (it.isAtEnd = false ∧ ∃ k t, st = k :: t :: base) := by
  induction h with
  | bgn v it st h =>
    rcases v with _ | val
    · simp only [InternalBegin] at h
      injection h with h1 h2
      subst h1; subst h2
      exact Or.inl ⟨rfl, rfl⟩
    · simp only [InternalBegin] at h
      by_cases htb : isTableVal val
      · rw [if_pos htb] at h
        cases hnx : luaNextAfter (tableEntries tbls val) none with
        | none =>
          rw [hnx] at h
          injection h with h1 h2
          subst h1; subst h2
          exact Or.inl ⟨rfl, rfl⟩
        | some kv =>
          rw [hnx] at h
          injection h with h1 h2
          subst h1; subst h2
          exact Or.inr ⟨rfl, kv.1, val, rfl⟩
      · rw [if_neg htb] at h
        injection h with h1 h2
        subst h1; subst h2
        exact Or.inl ⟨rfl, rfl⟩
  | step it st it2 st2 hr hlive h ih =>
    rcases ih with ⟨he, -⟩ | ⟨-, k, t, rfl⟩
    · rw [he] at hlive; cases hlive
    · simp only [IterNext] at h
      cases hnx : luaNextAfter (tableEntries tbls t) (some k) with
      | none =>
        rw [hnx] at h
        injection h with h1 h2
        subst h1; subst h2
        exact Or.inl ⟨rfl, rfl⟩
      | some kv =>
        rw [hnx] at h
        injection h with h1 h2
        subst h1; subst h2
        exact Or.inr ⟨rfl, kv.1, t, rfl⟩

/-- Claim C9: destroying an iterator reached by a begin call and any number
of live advances restores the operand stack to its pre-iteration value —
when the iterator still holds a pair the destructor pops exactly the two
outstanding slots (current key and table, the depth being base + 2), and
when it is exhausted the stack is already the base and the destructor pops
nothing. -/
theorem iterDestruct_restores_stack (tbls : TableStore) (base : List LuaValue)
    (it : TableIteratorM) (st : List LuaValue)
    (h : IterReach tbls base it st) :
    IterDestruct it st = base ∧
    (it.isAtEnd = true → IterDestruct it st = st ∧ st = base) ∧
    (it.isAtEnd = false → ∃ k t, st = k :: t :: base ∧
      st.length = base.length + 2) := by
  rcases iterReach_shape tbls base it st h with ⟨he, rfl⟩ | ⟨he, k, t, rfl⟩
  · refine ⟨by simp [IterDestruct, he], fun _ => ⟨by simp [IterDestruct, he], rfl⟩,
      fun hc => ?_⟩
    rw [he] at hc; cases hc
  · refine ⟨by simp [IterDestruct, he], fun hc => ?_, fun _ => ⟨k, t, rfl, by simp⟩⟩
    rw [he] at hc; cases hc

/-- Claim C9 witness: beginning iteration over a one-pair table from the
empty base stack leaves a live iterator with two slots pushed, and
destroying it right there (an early loop exit) restores the empty base
stack. -/
theorem iterDestruct_restores_stack_witness :
    IterDestruct
        (InternalBegin [[(.str "a", .intVal 1)]] (some (.table 0)) []).1
        (InternalBegin [[(.str "a", .intVal 1)]] (some (.table 0)) []).2 = [] :=
  (iterDestruct_restores_stack [[(.str "a", .intVal 1)]] []
    (InternalBegin [[(.str "a", .intVal 1)]] (some (.table 0)) []).1
    (InternalBegin [[(.str "a", .intVal 1)]] (some (.table 0)) []).2
    (IterReach.bgn (some (.table 0)) _ _ rfl)).1

end BleachLua
